import Mathlib

/-! # Verification of the Ana ring-baton simulation

A shallow embedding of `src/Ana.py`: a deterministic discrete-time
simulation of a single baton circulating on a fixed 6-position ring
(A–B–C–D–E–F), with a jump/act task protocol at position C, a
hesitation/shadow subsystem with decay and latching, direction reversal
on failed acts, and escalation (park + buffer flip) after a run of
consecutive failures.

Positions are `Fin 6`; the per-position arrays `S` (committed state),
`E` (shadow level) and `buf` (buffered phase sign) are functions
`Fin 6 → Int`, mirroring the Python lists.  One simulation tick
(the body of the `for t in ...` loop in `simulate`) becomes the pure
function `tick`, returning the next state together with the tick's
ordered event list.
-/

namespace Ana

/-- Ring positions: 0=A, 1=B, 2=C, 3=D, 4=E, 5=F. -/
abbrev Pos := Fin 6

/-- `left(i) = (i - 1) % N`: counter-clockwise neighbor on the ring. -/
def left (i : Pos) : Pos := i - 1

/-- `right(i) = (i + 1) % N`: clockwise neighbor on the ring. -/
def right (i : Pos) : Pos := i + 1

/-- Index of tile A. -/
def aIdx : Pos := 0
/-- Index of tile B. -/
def bIdx : Pos := 1
/-- Index of tile C. -/
def cIdx : Pos := 2
/-- Index of tile D. -/
def dIdx : Pos := 3
/-- Index of tile E. -/
def eIdx : Pos := 4
/-- Index of tile F. -/
def fIdx : Pos := 5

/-- `domain_sign`: +1 for tiles {A, B, C}, −1 for {D, E, F}.  Fixed
segmentation domains for release behavior. -/
def domain_sign (i : Pos) : Int :=
  if i = aIdx ∨ i = bIdx ∨ i = cIdx then 1 else -1

/-- `eff(S, buf, i)`: effective value for boundary checks — the token's
position uses its buffered phase sign (`buf[i]` when `S[i] == 0`),
otherwise the committed value `S[i]`. -/
def eff (S buf : Pos → Int) (i : Pos) : Int :=
  if S i = 0 then buf i else S i

/-- `boundary_strict_effective(S, buf, i)`: strict boundary test — the
effective values of `i`'s two ring neighbors sum to zero. -/
def boundary_strict_effective (S buf : Pos → Int) (i : Pos) : Bool :=
  eff S buf (left i) + eff S buf (right i) == 0

/-- Baton travel direction (the Python `"CW"` / `"CCW"` strings). -/
inductive Dir
  | CW
  | CCW
deriving DecidableEq, Repr

/-- `"CCW" if task.DIR == "CW" else "CW"`. -/
def flipDir (d : Dir) : Dir :=
  if d = Dir.CW then Dir.CCW else Dir.CW

/-- The task control block (Python dataclass `Task`). -/
structure Task where
  P : Int
  D : Int
  TTL : Int
  FAILCOUNT : Int
  DIR : Dir
  K : Int
  H : Int
  PARK : Int
deriving DecidableEq, Repr

/-- `Task(TTL=ttl)`: the dataclass defaults with the given TTL. -/
def Task.start (ttl : Int) : Task :=
  { P := 1, D := 1, TTL := ttl, FAILCOUNT := 0, DIR := Dir.CW,
    K := 3, H := 2, PARK := 0 }

/-- `step_baton(pos, direction)`. -/
def step_baton (pos : Pos) (direction : Dir) : Pos :=
  if direction = Dir.CW then right pos else left pos

/-- Per-tick shadow decay: every position with `E[i] > 0` is decremented. -/
def decayAll (E : Pos → Int) : Pos → Int :=
  fun i => if E i > 0 then E i - 1 else E i

/-- Full simulation state: the mutable arrays of `simulate` plus the
baton location and the task control block. -/
structure SimState where
  S : Pos → Int
  E : Pos → Int
  buf : Pos → Int
  baton_pos : Pos
  task : Task

/-- The destination of this tick's baton move:
`new = step_baton(baton_pos, task.DIR)`. -/
def tickDest (st : SimState) : Pos :=
  step_baton st.baton_pos st.task.DIR

/-- The committed array after the release write `S[old] = domain_sign(old)`. -/
def releasedS (st : SimState) : Pos → Int :=
  Function.update st.S st.baton_pos (domain_sign st.baton_pos)

/-- `prev = S[new]`, read after the release write. -/
def tickPrev (st : SimState) : Int :=
  releasedS st (tickDest st)

/-- The committed array after the full atomic swap: release of the old
position followed by the acquire write `S[new] = 0`. -/
def postS (st : SimState) : Pos → Int :=
  Function.update (releasedS st) (tickDest st) 0

/-- The discrete events a tick can emit (the strings appended to the
Python `events` list, with their numeric payloads). -/
inductive Event
  | arriveC
  | jump
  | boundaryInfo (lb rb : Bool)
  | actSuccess
  | ttlNow (n : Int)
  | reArm
  | done
  | hesitate (n : Int)
  | reverse (d : Dir)
  | failNow (n : Int)
  | escalate (park : Int) (bufC : Int)
deriving DecidableEq, Repr

/-- The ACT-success branch: latch shadows on the two neighbors of the
arrival position, reset hesitation at C, clear the fail counter, consume
one unit of TTL, and either re-arm the jump or finish the task. -/
def actSuccessStep (Hshadow : Int) (st : SimState) (lb rb : Bool) :
    SimState × List Event :=
  let E1 := decayAll st.E
  let L := left (tickDest st)
  let R := right (tickDest st)
  let E2 := Function.update E1 L (max (E1 L) Hshadow)
  let E3 := Function.update E2 R (max (E2 R) Hshadow)
  let E4 := Function.update E3 cIdx 0
  let ttl2 := st.task.TTL - 1
  if ttl2 > 0 then
    ({ st with
        S := postS st,
        E := E4,
        baton_pos := tickDest st,
        task := { st.task with FAILCOUNT := 0, TTL := ttl2, D := 1 } },
     [Event.arriveC, Event.boundaryInfo lb rb, Event.actSuccess,
      Event.ttlNow ttl2, Event.reArm])
  else
    ({ st with
        S := postS st,
        E := E4,
        baton_pos := tickDest st,
        task := { st.task with FAILCOUNT := 0, TTL := ttl2, P := 0, D := 0 } },
     [Event.arriveC, Event.boundaryInfo lb rb, Event.actSuccess,
      Event.ttlNow ttl2, Event.done])

/-- The ACT-failure branch: hesitation accumulates at C (capped at
`Emax`), the direction reverses, the fail counter increments, and on
reaching the threshold `K` the task escalates: park for `H` ticks,
reset the fail counter, and flip `buf[C]`'s sign. -/
def actFailStep (Emax : Int) (st : SimState) (lb rb : Bool) :
    SimState × List Event :=
  let E1 := decayAll st.E
  let e2 := min (E1 cIdx + 1) Emax
  let E2 := Function.update E1 cIdx e2
  let dir2 := flipDir st.task.DIR
  let fc2 := st.task.FAILCOUNT + 1
  if fc2 ≥ st.task.K then
    ({ st with
        S := postS st,
        E := E2,
        baton_pos := tickDest st,
        buf := Function.update st.buf cIdx (st.buf cIdx * -1),
        task := { st.task with DIR := dir2, FAILCOUNT := 0, PARK := st.task.H } },
     [Event.arriveC, Event.boundaryInfo lb rb, Event.hesitate e2,
      Event.reverse dir2, Event.failNow fc2,
      Event.escalate st.task.H (st.buf cIdx * -1)])
  else
    ({ st with
        S := postS st,
        E := E2,
        baton_pos := tickDest st,
        task := { st.task with DIR := dir2, FAILCOUNT := fc2 } },
     [Event.arriveC, Event.boundaryInfo lb rb, Event.hesitate e2,
      Event.reverse dir2, Event.failNow fc2])

/-- `lb = boundary_strict_effective(S, buf, L)` with `L = left(baton_pos)`,
evaluated against the post-swap committed array. -/
def lbOf (st : SimState) : Bool :=
  boundary_strict_effective (postS st) st.buf (left (tickDest st))

/-- `rb = boundary_strict_effective(S, buf, R)` with `R = right(baton_pos)`,
evaluated against the post-swap committed array. -/
def rbOf (st : SimState) : Bool :=
  boundary_strict_effective (postS st) st.buf (right (tickDest st))

/-- An ACT attempt (task active, `D == 0`, arrival at C): evaluate the
strict boundary on both ring-neighbors of the arrival position, against
the post-swap committed array, and branch on joint success. -/
def actAttemptStep (Hshadow Emax : Int) (st : SimState) :
    SimState × List Event :=
  if lbOf st && rbOf st then actSuccessStep Hshadow st (lbOf st) (rbOf st)
  else actFailStep Emax st (lbOf st) (rbOf st)

/-- One simulation tick, the body of the loop in `simulate`:
(1) decay all shadows; (2) if parked, decrement the park counter and
stop; (3) otherwise move the baton (atomic release/acquire swap);
(4) if the destination is C and the previous value there was a genuine
polarity, and the task is active, run the task controller (jump if
`D == 1`, else an act attempt).  Returns the new state and the tick's
event list. -/
def tick (Hshadow Emax : Int) (st : SimState) : SimState × List Event :=
  if st.task.PARK > 0 then
    ({ st with
        E := decayAll st.E,
        task := { st.task with PARK := st.task.PARK - 1 } }, [])
  else if (tickDest st = cIdx ∧ (tickPrev st = 1 ∨ tickPrev st = -1)) ∧
      st.task.P = 1 then
    if st.task.D = 1 then
      ({ st with
          S := postS st,
          E := decayAll st.E,
          baton_pos := tickDest st,
          task := { st.task with D := 0 } },
       [Event.arriveC, Event.jump])
    else
      actAttemptStep Hshadow Emax st
  else
    ({ st with
        S := postS st,
        E := decayAll st.E,
        baton_pos := tickDest st }, [])

/-- The initial committed array `S = [+1, +1, +1, -1, -1, -1]`. -/
def initS : Pos → Int := ![1, 1, 1, -1, -1, -1]

/-- The state at the top of `simulate`, before any tick: baton at A
(`S[A] = 0`), no shadows, buffers at the domain signs, fresh task. -/
def initState (ttl : Int) : SimState :=
  { S := Function.update initS aIdx 0,
    E := fun _ => 0,
    buf := fun i => domain_sign i,
    baton_pos := aIdx,
    task := Task.start ttl }

/-- The state after `n` ticks starting from `st`. -/
def runSt (Hshadow Emax : Int) (st : SimState) : Nat → SimState
  | 0 => st
  | n + 1 => (tick Hshadow Emax (runSt Hshadow Emax st n)).1

/-- The per-tick event lists of the first `n` ticks starting from `st`,
in tick order. -/
def runTrace (Hshadow Emax : Int) (st : SimState) : Nat → List (List Event)
  | 0 => []
  | n + 1 =>
      runTrace Hshadow Emax st n ++ [(tick Hshadow Emax (runSt Hshadow Emax st n)).2]

/-- Concatenation of a trace's per-tick event lists. -/
def allEvents : List (List Event) → List Event
  | [] => []
  | l :: ls => l ++ allEvents ls

/-- The simulation state of the default configuration
(`Hshadow=3, Emax=6, TTL=3`) after `n` ticks. -/
def defRun (n : Nat) : SimState := runSt 3 6 (initState 3) n

/-- The event trace of the default configuration over the first `n` ticks. -/
def defTrace (n : Nat) : List (List Event) := runTrace 3 6 (initState 3) n

/-- Recognizer for direction-reversal events. -/
def isRev : Event → Bool
  | Event.reverse _ => true
  | _ => false

/-- Recognizer for escalation events. -/
def isEsc : Event → Bool
  | Event.escalate _ _ => true
  | _ => false

/-- The simulation-relevant configuration accepted by `simulate` /
the CLI: tick count, shadow latch floor, hesitation cap, repeat budget.
(`failThreshold`, `parkDuration` and the initial direction are fixed by
the `Task` dataclass defaults and are not configurable.) -/
structure Config where
  steps : Int
  Hshadow : Int
  Emax : Int
  TTL : Int

/-- The CLI defaults: `--steps 80 --hshadow 3 --emax 6 --ttl 3`. -/
def defaultConfig : Config :=
  { steps := 80, Hshadow := 3, Emax := 6, TTL := 3 }

/-- Construction of the engine from a configuration.  The source
performs no validation whatsoever: this is a total function. -/
def construct (cfg : Config) : SimState := initState cfg.TTL

/-- `range(1, steps + 1)` has `max steps 0` elements: the number of
ticks a run with the given `--steps` value performs. -/
def tickCountOf (steps : Int) : Nat := steps.toNat

/-- Running `simulate` to completion: the final state after all ticks. -/
def runConfig (cfg : Config) : SimState :=
  runSt cfg.Hshadow cfg.Emax (construct cfg) (tickCountOf cfg.steps)

/-- The tick is an act attempt: not parked, the destination is C with a
genuine previous polarity there, the task is active, and the jump has
already fired. -/
def actAttempt (st : SimState) : Prop :=
  ¬ st.task.PARK > 0 ∧ tickDest st = cIdx ∧
    (tickPrev st = 1 ∨ tickPrev st = -1) ∧ st.task.P = 1 ∧ st.task.D ≠ 1

instance (st : SimState) : Decidable (actAttempt st) := by
  unfold actAttempt; infer_instance

/-- The committed array marks exactly the baton's position with 0 and
every other position with its domain sign. -/
def goodS (st : SimState) : Prop :=
  ∀ i, st.S i = if i = st.baton_pos then 0 else domain_sign i

instance (st : SimState) : Decidable (goodS st) := by
  unfold goodS; infer_instance

/-- All shadow levels lie in `[0, Emax]`. -/
def goodE (Emax : Int) (st : SimState) : Prop :=
  ∀ i, 0 ≤ st.E i ∧ st.E i ≤ Emax

instance (Emax : Int) (st : SimState) : Decidable (goodE Emax st) := by
  unfold goodE; infer_instance

/-- A hand-built state whose next tick is a successful act attempt: the
baton sits at B moving CW toward C, and the committed values at A and E
have been chosen opposite to `buf[C]` (such a committed array is not
reachable from `initState`, which is exactly why the success branch is
exercised here and nowhere in a real run). -/
def succState : SimState :=
  { S := ![-1, 0, 1, -1, -1, -1],
    E := fun _ => 5,
    buf := fun _ => 1,
    baton_pos := bIdx,
    task := { P := 1, D := 0, TTL := 5, FAILCOUNT := 7, DIR := Dir.CW,
              K := 3, H := 2, PARK := 0 } }

/-- A configuration the specification calls invalid: non-positive tick
count and negative counters. -/
def badConfig : Config :=
  { steps := 0, Hshadow := -1, Emax := -1, TTL := -1 }

end Ana

namespace Ana

/-! ## Basic facts about the ring and the tick's branch structure -/

/-- A single baton step never stays in place on the 6-ring. -/
lemma step_baton_ne (p : Pos) (d : Dir) : step_baton p d ≠ p := by
  cases d <;> revert p <;> decide

/-- Every domain sign is a genuine polarity. -/
lemma domain_sign_pm (i : Pos) : domain_sign i = 1 ∨ domain_sign i = -1 := by
  revert i
  decide

/-- No domain sign is the baton marker 0. -/
lemma domain_sign_ne_zero (i : Pos) : domain_sign i ≠ 0 := by
  revert i
  decide

/-- The tick equation for a parked tick. -/
lemma tick_parked (Hshadow Emax : Int) (st : SimState)
    (hp : st.task.PARK > 0) :
    tick Hshadow Emax st =
      ({ st with
          E := decayAll st.E,
          task := { st.task with PARK := st.task.PARK - 1 } }, []) := by
  unfold tick
  rw [if_pos hp]

/-- The tick equation for a non-parked tick that does not process an
ARRIVE_C occurrence. -/
lemma tick_noarrive (Hshadow Emax : Int) (st : SimState)
    (hp : ¬ st.task.PARK > 0)
    (hn : ¬ ((tickDest st = cIdx ∧ (tickPrev st = 1 ∨ tickPrev st = -1)) ∧
        st.task.P = 1)) :
    tick Hshadow Emax st =
      ({ st with
          S := postS st,
          E := decayAll st.E,
          baton_pos := tickDest st }, []) := by
  unfold tick
  rw [if_neg hp, if_neg hn]

/-- The tick equation for a jump tick. -/
lemma tick_jump (Hshadow Emax : Int) (st : SimState)
    (hp : ¬ st.task.PARK > 0)
    (ha : (tickDest st = cIdx ∧ (tickPrev st = 1 ∨ tickPrev st = -1)) ∧
        st.task.P = 1)
    (hd : st.task.D = 1) :
    tick Hshadow Emax st =
      ({ st with
          S := postS st,
          E := decayAll st.E,
          baton_pos := tickDest st,
          task := { st.task with D := 0 } },
       [Event.arriveC, Event.jump]) := by
  unfold tick
  rw [if_neg hp, if_pos ha, if_pos hd]

/-- The tick equation for an act-attempt tick. -/
lemma tick_act (Hshadow Emax : Int) (st : SimState)
    (hp : ¬ st.task.PARK > 0)
    (ha : (tickDest st = cIdx ∧ (tickPrev st = 1 ∨ tickPrev st = -1)) ∧
        st.task.P = 1)
    (hd : ¬ st.task.D = 1) :
    tick Hshadow Emax st = actAttemptStep Hshadow Emax st := by
  unfold tick
  rw [if_neg hp, if_pos ha, if_neg hd]

/-- The act-attempt equation when the boundary test fails. -/
lemma actAttemptStep_fail (Hshadow Emax : Int) (st : SimState)
    (hb : ¬ (lbOf st && rbOf st) = true) :
    actAttemptStep Hshadow Emax st = actFailStep Emax st (lbOf st) (rbOf st) := by
  unfold actAttemptStep
  rw [if_neg hb]

/-- The act-attempt equation when the boundary test succeeds. -/
lemma actAttemptStep_success (Hshadow Emax : Int) (st : SimState)
    (hb : (lbOf st && rbOf st) = true) :
    actAttemptStep Hshadow Emax st =
      actSuccessStep Hshadow st (lbOf st) (rbOf st) := by
  unfold actAttemptStep
  rw [if_pos hb]

/-! ## The committed-array invariant -/

/-- In a `goodS` state, the post-swap committed array marks exactly the
destination with 0 and every other position with its domain sign. -/
lemma postS_goodS (st : SimState) (hg : goodS st) (i : Pos) :
    postS st i = if i = tickDest st then 0 else domain_sign i := by
  unfold postS releasedS
  rw [Function.update_apply]
  by_cases hi : i = tickDest st
  · subst hi
    simp
  · rw [if_neg hi, if_neg hi, Function.update_apply]
    by_cases ho : i = st.baton_pos
    · rw [if_pos ho, ho]
    · rw [if_neg ho, hg i, if_neg ho]

/-- In a `goodS` state, the value the destination held before acquisition
is its domain sign. -/
lemma tickPrev_goodS (st : SimState) (hg : goodS st) :
    tickPrev st = domain_sign (tickDest st) := by
  unfold tickPrev releasedS
  rw [Function.update_apply]
  by_cases ho : tickDest st = st.baton_pos
  · exact absurd ho (step_baton_ne st.baton_pos st.task.DIR)
  · rw [if_neg ho, hg (tickDest st), if_neg ho]

/-- In a `goodS` state the previous value at the destination is a genuine
polarity. -/
lemma tickPrev_pm (st : SimState) (hg : goodS st) :
    tickPrev st = 1 ∨ tickPrev st = -1 := by
  rw [tickPrev_goodS st hg]
  exact domain_sign_pm (tickDest st)

/-- Every branch of a non-parked tick installs the post-swap array and
moves the baton to the destination. -/
lemma tick_S_pos (Hshadow Emax : Int) (st : SimState)
    (hp : ¬ st.task.PARK > 0) :
    (tick Hshadow Emax st).1.S = postS st ∧
    (tick Hshadow Emax st).1.baton_pos = tickDest st := by
  unfold tick actAttemptStep actSuccessStep actFailStep
  rw [if_neg hp]
  dsimp only
  split_ifs <;> exact ⟨rfl, rfl⟩

/-- One tick preserves the committed-array invariant. -/
lemma goodS_tick (Hshadow Emax : Int) (st : SimState) (hg : goodS st) :
    goodS (tick Hshadow Emax st).1 := by
  by_cases hp : st.task.PARK > 0
  · rw [tick_parked Hshadow Emax st hp]
    intro i
    exact hg i
  · intro i
    rcases tick_S_pos Hshadow Emax st hp with ⟨hS, hpos⟩
    rw [hS, hpos]
    exact postS_goodS st hg i

/-- The initial state satisfies the committed-array invariant. -/
lemma goodS_init (ttl : Int) : goodS (initState ttl) := by
  intro i
  fin_cases i <;> rfl

/-- Every reachable state of a run from `initState` satisfies the
committed-array invariant. -/
lemma goodS_run (Hshadow Emax ttl : Int) (n : Nat) :
    goodS (runSt Hshadow Emax (initState ttl) n) := by
  induction n with
  | zero => exact goodS_init ttl
  | succ n ih => exact goodS_tick Hshadow Emax _ ih

end Ana

namespace Ana

/-! ## Boundary evaluation in reachable states -/

/-- In a `goodS` state arriving at C, the post-swap effective value of a
position other than C is its domain sign. -/
lemma eff_postS_ne (st : SimState) (hg : goodS st) (hd : tickDest st = cIdx)
    (i : Pos) (hi : i ≠ cIdx) :
    eff (postS st) st.buf i = domain_sign i := by
  have h1 : postS st i = domain_sign i := by
    rw [postS_goodS st hg i, hd, if_neg hi]
  unfold eff
  rw [h1, if_neg (domain_sign_ne_zero i)]

/-- In a `goodS` state arriving at C, the post-swap effective value of C
itself is its buffered sign. -/
lemma eff_postS_c (st : SimState) (hg : goodS st) (hd : tickDest st = cIdx) :
    eff (postS st) st.buf cIdx = st.buf cIdx := by
  have h1 : postS st cIdx = 0 := by
    rw [postS_goodS st hg cIdx, hd, if_pos rfl]
  unfold eff
  rw [h1, if_pos rfl]

/-- In a `goodS` state arriving at C, the left boundary test reduces to
`1 + buf[C] == 0`. -/
lemma lbOf_goodS (st : SimState) (hg : goodS st) (hd : tickDest st = cIdx) :
    lbOf st = (1 + st.buf cIdx == 0) := by
  unfold lbOf boundary_strict_effective
  rw [hd]
  have e1 : left (left cIdx) = aIdx := by decide
  have e2 : right (left cIdx) = cIdx := by decide
  rw [e1, e2, eff_postS_ne st hg hd aIdx (by decide), eff_postS_c st hg hd]
  have e3 : domain_sign aIdx = 1 := by decide
  rw [e3]

/-- In a `goodS` state arriving at C, the right boundary test reduces to
`buf[C] + -1 == 0`. -/
lemma rbOf_goodS (st : SimState) (hg : goodS st) (hd : tickDest st = cIdx) :
    rbOf st = (st.buf cIdx + -1 == 0) := by
  unfold rbOf boundary_strict_effective
  rw [hd]
  have e1 : left (right cIdx) = cIdx := by decide
  have e2 : right (right cIdx) = eIdx := by decide
  rw [e1, e2, eff_postS_ne st hg hd eIdx (by decide), eff_postS_c st hg hd]
  have e3 : domain_sign eIdx = -1 := by decide
  rw [e3]

/-- In a `goodS` state the two boundary tests around C cannot both
succeed: the left one needs `buf[C] = -1` and the right one `buf[C] = 1`.
Consequently an ACT success is unreachable from the genuine initial
state. -/
lemma no_act_success (st : SimState) (hg : goodS st)
    (hd : tickDest st = cIdx) : ¬ (lbOf st && rbOf st) = true := by
  rw [lbOf_goodS st hg hd, rbOf_goodS st hg hd]
  intro h
  rw [Bool.and_eq_true] at h
  rcases h with ⟨h1, h2⟩
  rw [beq_iff_eq] at h1 h2
  omega

/-! ## Shadow bounds -/

/-- The decay step preserves the `[0, Emax]` window at every position. -/
lemma decayAll_bounds (E : Pos → Int) (Emax : Int) (i : Pos)
    (h : 0 ≤ E i ∧ E i ≤ Emax) :
    0 ≤ decayAll E i ∧ decayAll E i ≤ Emax := by
  unfold decayAll
  split_ifs <;> omega

/-- The shadow array produced by the ACT-failure branch. -/
lemma actFailStep_E (Emax : Int) (st : SimState) (lb rb : Bool) :
    (actFailStep Emax st lb rb).1.E =
      Function.update (decayAll st.E) cIdx
        (min (decayAll st.E cIdx + 1) Emax) := by
  unfold actFailStep
  dsimp only
  split_ifs <;> rfl

/-- One tick preserves the shadow window `[0, Emax]`, given the
committed-array invariant (which rules out the latch branch). -/
lemma goodE_tick (Hshadow Emax : Int) (st : SimState) (hg : goodS st)
    (he : goodE Emax st) (hE : 0 ≤ Emax) :
    goodE Emax (tick Hshadow Emax st).1 := by
  by_cases hp : st.task.PARK > 0
  · rw [tick_parked Hshadow Emax st hp]
    intro i
    exact decayAll_bounds st.E Emax i (he i)
  · by_cases ha : (tickDest st = cIdx ∧ (tickPrev st = 1 ∨ tickPrev st = -1)) ∧
        st.task.P = 1
    · by_cases hd : st.task.D = 1
      · rw [tick_jump Hshadow Emax st hp ha hd]
        intro i
        exact decayAll_bounds st.E Emax i (he i)
      · rw [tick_act Hshadow Emax st hp ha hd,
          actAttemptStep_fail Hshadow Emax st (no_act_success st hg ha.1.1)]
        intro i
        rw [actFailStep_E, Function.update_apply]
        by_cases hc : i = cIdx
        · rw [if_pos hc]
          have hb := decayAll_bounds st.E Emax cIdx (he cIdx)
          exact ⟨le_min (by omega) hE, min_le_right _ _⟩
        · rw [if_neg hc]
          exact decayAll_bounds st.E Emax i (he i)
    · rw [tick_noarrive Hshadow Emax st hp ha]
      intro i
      exact decayAll_bounds st.E Emax i (he i)

/-- The initial shadow array is all zero, hence inside any non-negative
window. -/
lemma goodE_init (ttl Emax : Int) (hE : 0 ≤ Emax) :
    goodE Emax (initState ttl) := by
  intro i
  exact ⟨le_refl 0, hE⟩

/-- Every reachable state of a run keeps all shadow levels inside
`[0, Emax]`, provided `Emax` is non-negative. -/
lemma goodE_run (Hshadow Emax ttl : Int) (hE : 0 ≤ Emax) (n : Nat) :
    goodE Emax (runSt Hshadow Emax (initState ttl) n) := by
  induction n with
  | zero => exact goodE_init ttl Emax hE
  | succ n ih =>
      exact goodE_tick Hshadow Emax _ (goodS_run Hshadow Emax ttl n) ih hE

end Ana

namespace Ana

/-! ## Inert task: behavior after completion (or with the task inactive) -/

/-- A tick from a non-parked state with an inactive task processes no
occurrence. -/
lemma inert_tick (Hshadow Emax : Int) (st : SimState) (hP : st.task.P = 0)
    (hpark : ¬ st.task.PARK > 0) :
    tick Hshadow Emax st =
      ({ st with
          S := postS st,
          E := decayAll st.E,
          baton_pos := tickDest st }, []) := by
  apply tick_noarrive Hshadow Emax st hpark
  intro h
  rw [hP] at h
  exact absurd h.2 (by norm_num)

/-- With the task inactive and not parked, the task control block never
changes again. -/
lemma inert_run (Hshadow Emax : Int) (st : SimState) (hP : st.task.P = 0)
    (hpark : ¬ st.task.PARK > 0) (n : Nat) :
    (runSt Hshadow Emax st n).task = st.task := by
  induction n with
  | zero => rfl
  | succ n ih =>
      show (tick Hshadow Emax (runSt Hshadow Emax st n)).1.task = st.task
      have hP2 : (runSt Hshadow Emax st n).task.P = 0 := by rw [ih]; exact hP
      have hpark2 : ¬ (runSt Hshadow Emax st n).task.PARK > 0 := by
        rw [ih]; exact hpark
      rw [inert_tick Hshadow Emax _ hP2 hpark2]
      exact ih

/-! ## Claim theorems -/

/-- C1.  Single-baton invariant: in the initial state and after every
tick, exactly one of the 6 positions holds committed value 0 (and it is
the baton's position), and every other position holds +1 or −1. -/
theorem single_baton_invariant (Hshadow Emax ttl : Int) (n : Nat) :
    (∃! i : Pos, (runSt Hshadow Emax (initState ttl) n).S i = 0) ∧
    (runSt Hshadow Emax (initState ttl) n).S
        (runSt Hshadow Emax (initState ttl) n).baton_pos = 0 ∧
    (∀ i : Pos, i ≠ (runSt Hshadow Emax (initState ttl) n).baton_pos →
       ((runSt Hshadow Emax (initState ttl) n).S i = 1 ∨
        (runSt Hshadow Emax (initState ttl) n).S i = -1)) := by
  have hg := goodS_run Hshadow Emax ttl n
  refine ⟨⟨(runSt Hshadow Emax (initState ttl) n).baton_pos, ?_, ?_⟩, ?_, ?_⟩
  · show (runSt Hshadow Emax (initState ttl) n).S
        (runSt Hshadow Emax (initState ttl) n).baton_pos = 0
    rw [hg _, if_pos rfl]
  · intro j hj
    have hj2 : (runSt Hshadow Emax (initState ttl) n).S j = 0 := hj
    by_contra hne
    rw [hg j, if_neg hne] at hj2
    exact domain_sign_ne_zero j hj2
  · rw [hg _, if_pos rfl]
  · intro i hi
    rw [hg i, if_neg hi]
    exact domain_sign_pm i

/-- Witness of C1 on a concrete run: after 5 ticks of the default
configuration, position A is away from the baton and holds a genuine
polarity. -/
theorem single_baton_invariant_witness :
    (0 : Pos) ≠ (runSt 3 6 (initState 3) 5).baton_pos ∧
    ((runSt 3 6 (initState 3) 5).S 0 = 1 ∨
     (runSt 3 6 (initState 3) 5).S 0 = -1) :=
  ⟨by decide, (single_baton_invariant 3 6 3 5).2.2 0 (by decide)⟩

/-- C10.  In every reachable snapshot, every non-baton position holds
exactly its static domain sign; consequently the previous value at any
move's destination is a genuine polarity in {+1, −1}, so the defensive
`prev in (+1, -1)` guard never suppresses an arrival at C: the
occurrence test degenerates to `destination = C`. -/
theorem released_positions_domain_sign (Hshadow Emax ttl : Int) (n : Nat) :
    (∀ i : Pos, i ≠ (runSt Hshadow Emax (initState ttl) n).baton_pos →
       (runSt Hshadow Emax (initState ttl) n).S i = domain_sign i) ∧
    (tickPrev (runSt Hshadow Emax (initState ttl) n) = 1 ∨
     tickPrev (runSt Hshadow Emax (initState ttl) n) = -1) ∧
    ((tickDest (runSt Hshadow Emax (initState ttl) n) = cIdx ∧
      (tickPrev (runSt Hshadow Emax (initState ttl) n) = 1 ∨
       tickPrev (runSt Hshadow Emax (initState ttl) n) = -1)) ↔
     tickDest (runSt Hshadow Emax (initState ttl) n) = cIdx) := by
  have hg := goodS_run Hshadow Emax ttl n
  have hpm := tickPrev_pm _ hg
  refine ⟨?_, hpm, ?_⟩
  · intro i hi
    rw [hg i, if_neg hi]
  · constructor
    · exact fun h => h.1
    · exact fun h => ⟨h, hpm⟩

/-- Witness of C10 on a concrete run: after 3 ticks of the default
configuration, position B is away from the baton and holds its domain
sign. -/
theorem released_positions_domain_sign_witness :
    (1 : Pos) ≠ (runSt 3 6 (initState 3) 3).baton_pos ∧
    (runSt 3 6 (initState 3) 3).S 1 = domain_sign 1 :=
  ⟨by decide, (released_positions_domain_sign 3 6 3 3).1 1 (by decide)⟩

/-- C4.  Shadow bound: for every position and after every tick of a run
with non-negative cap, `0 ≤ E[i] ≤ Emax`. -/
theorem shadow_bound (Hshadow Emax ttl : Int) (hE : 0 ≤ Emax) (n : Nat)
    (i : Pos) :
    0 ≤ (runSt Hshadow Emax (initState ttl) n).E i ∧
    (runSt Hshadow Emax (initState ttl) n).E i ≤ Emax :=
  goodE_run Hshadow Emax ttl hE n i

/-- Witness of C4 at the default cap after 9 ticks. -/
theorem shadow_bound_witness :
    (0 : Int) ≤ 6 ∧
    0 ≤ (runSt 3 6 (initState 3) 9).E cIdx ∧
    (runSt 3 6 (initState 3) 9).E cIdx ≤ 6 :=
  ⟨by decide, (shadow_bound 3 6 3 (by decide) 9 cIdx).1,
   (shadow_bound 3 6 3 (by decide) 9 cIdx).2⟩

/-- C5.  Park semantics: a tick that begins parked still applies the
shadow decay, decrements the park counter by exactly 1, and changes
nothing else — baton position, direction, committed array, buffers and
the rest of the task are untouched, and no occurrence is processed. -/
theorem park_semantics (Hshadow Emax : Int) (st : SimState)
    (hp : st.task.PARK > 0) :
    (tick Hshadow Emax st).1.E = decayAll st.E ∧
    (tick Hshadow Emax st).1.task.PARK = st.task.PARK - 1 ∧
    (tick Hshadow Emax st).1.baton_pos = st.baton_pos ∧
    (tick Hshadow Emax st).1.task.DIR = st.task.DIR ∧
    (tick Hshadow Emax st).1.S = st.S ∧
    (tick Hshadow Emax st).1.buf = st.buf ∧
    (tick Hshadow Emax st).2 = [] ∧
    (tick Hshadow Emax st).1.task.P = st.task.P ∧
    (tick Hshadow Emax st).1.task.D = st.task.D ∧
    (tick Hshadow Emax st).1.task.TTL = st.task.TTL ∧
    (tick Hshadow Emax st).1.task.FAILCOUNT = st.task.FAILCOUNT := by
  rw [tick_parked Hshadow Emax st hp]
  exact ⟨rfl, rfl, rfl, rfl, rfl, rfl, rfl, rfl, rfl, rfl, rfl⟩

/-- Witness of C5 on a concrete parked state: after 20 ticks of the
default run the task just escalated (`parkRemaining = 2`), and the next
tick moves nothing and emits nothing. -/
theorem park_semantics_witness :
    (tick 3 6 (runSt 3 6 (initState 3) 20)).2 = [] ∧
    (tick 3 6 (runSt 3 6 (initState 3) 20)).1.baton_pos =
      (runSt 3 6 (initState 3) 20).baton_pos :=
  ⟨(park_semantics 3 6 (runSt 3 6 (initState 3) 20) (by decide)).2.2.2.2.2.2.1,
   (park_semantics 3 6 (runSt 3 6 (initState 3) 20) (by decide)).2.2.1⟩

end Ana

namespace Ana

/-- C2.  Boundary evaluation is two-hop: `strictBoundary(i)` is true iff
the effective values of `i`'s ring neighbors sum to zero, the effective
value is `buf[j]` when `S[j] == 0` and `S[j]` otherwise, and on every
act attempt the test is invoked exactly on `left(C) = B` and
`right(C) = D` — so it checks symmetry around B (`eff(A) + eff(C) == 0`)
and around D (`eff(C) + eff(E) == 0`), never around C itself. -/
theorem boundary_two_hop :
    (∀ S buf : Pos → Int, ∀ i : Pos,
       boundary_strict_effective S buf i = true ↔
         eff S buf (left i) + eff S buf (right i) = 0) ∧
    (∀ S buf : Pos → Int, ∀ j : Pos,
       eff S buf j = if S j = 0 then buf j else S j) ∧
    (left cIdx = bIdx ∧ right cIdx = dIdx) ∧
    (∀ S buf : Pos → Int,
       (boundary_strict_effective S buf (left cIdx) = true ↔
          eff S buf aIdx + eff S buf cIdx = 0) ∧
       (boundary_strict_effective S buf (right cIdx) = true ↔
          eff S buf cIdx + eff S buf eIdx = 0)) ∧
    (∀ Hshadow Emax : Int, ∀ st : SimState, actAttempt st →
       Event.boundaryInfo
           (boundary_strict_effective (postS st) st.buf (left cIdx))
           (boundary_strict_effective (postS st) st.buf (right cIdx)) ∈
         (tick Hshadow Emax st).2) := by
  refine ⟨?_, ?_, by decide, ?_, ?_⟩
  · intro S buf i
    unfold boundary_strict_effective
    exact beq_iff_eq
  · intro S buf j
    rfl
  · intro S buf
    constructor
    · have e1 : left (left cIdx) = aIdx := by decide
      have e2 : right (left cIdx) = cIdx := by decide
      unfold boundary_strict_effective
      rw [e1, e2]
      exact beq_iff_eq
    · have e1 : left (right cIdx) = cIdx := by decide
      have e2 : right (right cIdx) = eIdx := by decide
      unfold boundary_strict_effective
      rw [e1, e2]
      exact beq_iff_eq
  · intro Hshadow Emax st hAct
    rcases hAct with ⟨hp, hd, hprev, hP, hD⟩
    have hl : boundary_strict_effective (postS st) st.buf (left cIdx) =
        lbOf st := by
      unfold lbOf
      rw [hd]
    have hr : boundary_strict_effective (postS st) st.buf (right cIdx) =
        rbOf st := by
      unfold rbOf
      rw [hd]
    rw [hl, hr, tick_act Hshadow Emax st hp ⟨⟨hd, hprev⟩, hP⟩ hD]
    unfold actAttemptStep actSuccessStep actFailStep
    dsimp only
    split_ifs <;> simp

/-- Witness of C2 on a concrete act attempt: tick 8 of the default run. -/
theorem boundary_two_hop_witness :
    actAttempt (runSt 3 6 (initState 3) 7) ∧
    Event.boundaryInfo
        (boundary_strict_effective (postS (runSt 3 6 (initState 3) 7))
          (runSt 3 6 (initState 3) 7).buf (left cIdx))
        (boundary_strict_effective (postS (runSt 3 6 (initState 3) 7))
          (runSt 3 6 (initState 3) 7).buf (right cIdx)) ∈
      (tick 3 6 (runSt 3 6 (initState 3) 7)).2 :=
  ⟨by decide,
   boundary_two_hop.2.2.2.2 3 6 (runSt 3 6 (initState 3) 7) (by decide)⟩

/-- C3.  Escalation trigger: on a failed act attempt, the incremented
fail counter reaches the threshold `K` exactly when the same tick emits
ESCALATE, sets `parkRemaining = parkDuration`, resets the fail counter
to 0, and flips `buf[C]`'s sign; below the threshold none of the four
effects occur. -/
theorem escalation_biconditional (Hshadow Emax : Int) (st : SimState)
    (hAct : actAttempt st)
    (hb : ¬ (lbOf st && rbOf st) = true) :
    ((st.task.FAILCOUNT + 1 ≥ st.task.K) ↔
       ((∃ p b : Int, Event.escalate p b ∈ (tick Hshadow Emax st).2) ∧
        (tick Hshadow Emax st).1.task.PARK = st.task.H ∧
        (tick Hshadow Emax st).1.task.FAILCOUNT = 0 ∧
        (tick Hshadow Emax st).1.buf cIdx = st.buf cIdx * -1)) ∧
    (st.task.FAILCOUNT + 1 < st.task.K →
       ((∀ p b : Int, Event.escalate p b ∉ (tick Hshadow Emax st).2) ∧
        (tick Hshadow Emax st).1.task.PARK = st.task.PARK ∧
        (tick Hshadow Emax st).1.task.FAILCOUNT = st.task.FAILCOUNT + 1 ∧
        (tick Hshadow Emax st).1.buf = st.buf)) := by
  rcases hAct with ⟨hp, hd, hprev, hP, hD⟩
  rw [tick_act Hshadow Emax st hp ⟨⟨hd, hprev⟩, hP⟩ hD,
    actAttemptStep_fail Hshadow Emax st hb]
  unfold actFailStep
  dsimp only
  by_cases hk : st.task.FAILCOUNT + 1 ≥ st.task.K
  · rw [if_pos hk]
    constructor
    · constructor
      · intro _
        refine ⟨⟨st.task.H, st.buf cIdx * -1, by simp⟩, rfl, rfl, ?_⟩
        exact Function.update_same cIdx (st.buf cIdx * -1) st.buf
      · intro _
        exact hk
    · intro hlt
      omega
  · rw [if_neg hk]
    constructor
    · constructor
      · intro h
        exact absurd h hk
      · rintro ⟨⟨p, b, hmem⟩, -, -, -⟩
        simp at hmem
    · intro _
      refine ⟨?_, rfl, rfl, rfl⟩
      intro p b hmem
      simp at hmem

/-- Witness of C3 on a concrete failing act attempt below the threshold:
tick 8 of the default run increments the fail counter without parking. -/
theorem escalation_biconditional_witness :
    ¬ (lbOf (runSt 3 6 (initState 3) 7) && rbOf (runSt 3 6 (initState 3) 7)) =
        true ∧
    (tick 3 6 (runSt 3 6 (initState 3) 7)).1.task.FAILCOUNT =
      (runSt 3 6 (initState 3) 7).task.FAILCOUNT + 1 :=
  ⟨by decide,
   ((escalation_biconditional 3 6 (runSt 3 6 (initState 3) 7) (by decide)
      (by decide)).2 (by decide)).2.2.1⟩

/-- C6.  Act-success postcondition: whenever an act attempt succeeds,
afterwards `E[C] = 0`, the shadows of both ring-neighbors of C are
latched with a max-with-floor (hence at least `Hshadow`), and
`failCount = 0` — regardless of the prior values of `E` and
`failCount`. -/
theorem act_success_postcondition (Hshadow Emax : Int) (st : SimState)
    (hAct : actAttempt st) (hb : (lbOf st && rbOf st) = true) :
    (tick Hshadow Emax st).1.E cIdx = 0 ∧
    (tick Hshadow Emax st).1.E bIdx = max (decayAll st.E bIdx) Hshadow ∧
    (tick Hshadow Emax st).1.E dIdx = max (decayAll st.E dIdx) Hshadow ∧
    Hshadow ≤ (tick Hshadow Emax st).1.E bIdx ∧
    Hshadow ≤ (tick Hshadow Emax st).1.E dIdx ∧
    (tick Hshadow Emax st).1.task.FAILCOUNT = 0 := by
  rcases hAct with ⟨hp, hd, hprev, hP, hD⟩
  rw [tick_act Hshadow Emax st hp ⟨⟨hd, hprev⟩, hP⟩ hD,
    actAttemptStep_success Hshadow Emax st hb]
  unfold actSuccessStep
  dsimp only
  rw [hd]
  have e1 : left cIdx = bIdx := by decide
  have e2 : right cIdx = dIdx := by decide
  rw [e1, e2]
  have n1 : (bIdx : Pos) ≠ cIdx := by decide
  have n2 : (bIdx : Pos) ≠ dIdx := by decide
  have n3 : (dIdx : Pos) ≠ cIdx := by decide
  have n4 : (dIdx : Pos) ≠ bIdx := by decide
  split_ifs
  all_goals
    dsimp only
    refine ⟨Function.update_same _ _ _, ?_, ?_, ?_, ?_, rfl⟩
    · rw [Function.update_noteq n1, Function.update_noteq n2,
        Function.update_same]
    · rw [Function.update_noteq n3, Function.update_same,
        Function.update_noteq n4]
    · rw [Function.update_noteq n1, Function.update_noteq n2,
        Function.update_same]
      exact le_max_right _ _
    · rw [Function.update_noteq n3, Function.update_same,
        Function.update_noteq n4]
      exact le_max_right _ _

/-- Witness of C6 on a hand-built succeeding state. -/
theorem act_success_postcondition_witness :
    actAttempt succState ∧ (lbOf succState && rbOf succState) = true ∧
    (tick 3 6 succState).1.E cIdx = 0 ∧
    (3 : Int) ≤ (tick 3 6 succState).1.E bIdx ∧
    (tick 3 6 succState).1.task.FAILCOUNT = 0 :=
  ⟨by decide, by decide,
   (act_success_postcondition 3 6 succState (by decide) (by decide)).1,
   (act_success_postcondition 3 6 succState (by decide) (by decide)).2.2.2.1,
   (act_success_postcondition 3 6 succState (by decide) (by decide)).2.2.2.2.2⟩

end Ana

namespace Ana

/-- C7.  Task termination: the repeat budget decreases by exactly 1 on
each ACT_SUCCESS and changes at no other time (and the active flag only
changes on a success); starting from a positive budget, the task becomes
inactive (`P = 0`, `D = 0`) exactly when the budget reaches 0 after a
success; and once the task is inactive (and unparked) it stays so — every
later tick emits no events while the baton keeps moving. -/
theorem task_termination (Hshadow Emax : Int) :
    (∀ st : SimState, Event.actSuccess ∈ (tick Hshadow Emax st).2 →
       (tick Hshadow Emax st).1.task.TTL = st.task.TTL - 1) ∧
    (∀ st : SimState, Event.actSuccess ∉ (tick Hshadow Emax st).2 →
       (tick Hshadow Emax st).1.task.TTL = st.task.TTL ∧
       (tick Hshadow Emax st).1.task.P = st.task.P) ∧
    (∀ st : SimState, Event.actSuccess ∈ (tick Hshadow Emax st).2 →
       1 ≤ st.task.TTL →
       (((tick Hshadow Emax st).1.task.P = 0 ∧
         (tick Hshadow Emax st).1.task.D = 0) ↔
        (tick Hshadow Emax st).1.task.TTL = 0)) ∧
    (∀ st : SimState, st.task.P = 0 → ¬ st.task.PARK > 0 → ∀ n : Nat,
       (runSt Hshadow Emax st n).task.P = 0 ∧
       ¬ (runSt Hshadow Emax st n).task.PARK > 0 ∧
       (tick Hshadow Emax (runSt Hshadow Emax st n)).2 = [] ∧
       (runSt Hshadow Emax st (n + 1)).baton_pos ≠
         (runSt Hshadow Emax st n).baton_pos) := by
  refine ⟨?_, ?_, ?_, ?_⟩
  · intro st hmem
    by_cases hp : st.task.PARK > 0
    · rw [tick_parked Hshadow Emax st hp] at hmem ⊢
      simp at hmem
    · by_cases ha : (tickDest st = cIdx ∧ (tickPrev st = 1 ∨ tickPrev st = -1)) ∧
          st.task.P = 1
      · by_cases hd : st.task.D = 1
        · rw [tick_jump Hshadow Emax st hp ha hd] at hmem ⊢
          simp at hmem
        · rw [tick_act Hshadow Emax st hp ha hd] at hmem ⊢
          by_cases hb : (lbOf st && rbOf st) = true
          · rw [actAttemptStep_success Hshadow Emax st hb] at hmem ⊢
            unfold actSuccessStep at hmem ⊢
            dsimp only at hmem ⊢
            split_ifs at hmem ⊢ <;> rfl
          · rw [actAttemptStep_fail Hshadow Emax st hb] at hmem ⊢
            unfold actFailStep at hmem ⊢
            dsimp only at hmem ⊢
            split_ifs at hmem ⊢ <;> simp at hmem
      · rw [tick_noarrive Hshadow Emax st hp ha] at hmem ⊢
        simp at hmem
  · intro st hmem
    by_cases hp : st.task.PARK > 0
    · rw [tick_parked Hshadow Emax st hp]
      exact ⟨rfl, rfl⟩
    · by_cases ha : (tickDest st = cIdx ∧ (tickPrev st = 1 ∨ tickPrev st = -1)) ∧
          st.task.P = 1
      · by_cases hd : st.task.D = 1
        · rw [tick_jump Hshadow Emax st hp ha hd]
          exact ⟨rfl, rfl⟩
        · rw [tick_act Hshadow Emax st hp ha hd] at hmem ⊢
          by_cases hb : (lbOf st && rbOf st) = true
          · exfalso
            apply hmem
            rw [actAttemptStep_success Hshadow Emax st hb]
            unfold actSuccessStep
            dsimp only
            split_ifs <;> simp
          · rw [actAttemptStep_fail Hshadow Emax st hb]
            unfold actFailStep
            dsimp only
            split_ifs <;> exact ⟨rfl, rfl⟩
      · rw [tick_noarrive Hshadow Emax st hp ha]
        exact ⟨rfl, rfl⟩
  · intro st hmem hTTL
    by_cases hp : st.task.PARK > 0
    · rw [tick_parked Hshadow Emax st hp] at hmem
      simp at hmem
    · by_cases ha : (tickDest st = cIdx ∧ (tickPrev st = 1 ∨ tickPrev st = -1)) ∧
          st.task.P = 1
      · by_cases hd : st.task.D = 1
        · rw [tick_jump Hshadow Emax st hp ha hd] at hmem
          simp at hmem
        · rw [tick_act Hshadow Emax st hp ha hd] at hmem ⊢
          by_cases hb : (lbOf st && rbOf st) = true
          · rw [actAttemptStep_success Hshadow Emax st hb] at hmem ⊢
            unfold actSuccessStep at hmem ⊢
            dsimp only at hmem ⊢
            have hP := ha.2
            split_ifs at hmem ⊢ with httl <;> dsimp only <;> omega
          · rw [actAttemptStep_fail Hshadow Emax st hb] at hmem
            unfold actFailStep at hmem
            dsimp only at hmem
            split_ifs at hmem <;> simp at hmem
      · rw [tick_noarrive Hshadow Emax st hp ha] at hmem
        simp at hmem
  · intro st hP hpark n
    have ht := inert_run Hshadow Emax st hP hpark n
    have hP2 : (runSt Hshadow Emax st n).task.P = 0 := by rw [ht]; exact hP
    have hpark2 : ¬ (runSt Hshadow Emax st n).task.PARK > 0 := by
      rw [ht]; exact hpark
    have htick := inert_tick Hshadow Emax (runSt Hshadow Emax st n) hP2 hpark2
    refine ⟨hP2, hpark2, ?_, ?_⟩
    · rw [htick]
    · show (tick Hshadow Emax (runSt Hshadow Emax st n)).1.baton_pos ≠
        (runSt Hshadow Emax st n).baton_pos
      rw [htick]
      exact step_baton_ne _ _

/-- Witness of C7: the first tick of the default run emits no
ACT_SUCCESS, so the budget and active flag are unchanged. -/
theorem task_termination_witness :
    (tick 3 6 (initState 3)).1.task.TTL = (initState 3).task.TTL ∧
    (tick 3 6 (initState 3)).1.task.P = (initState 3).task.P :=
  (task_termination 3 6).2.1 (initState 3) (by decide)

end Ana

namespace Ana

/-- C8, counterexample.  In the default run the first three act attempts
(ticks 8, 14, 20) all fail, reversing the direction exactly three times
— but after the third reversal the direction is CCW, NOT equal to the
original CW: an odd number of reversals nets a flip, so the claim "the
net direction equals the original" is false on the code. -/
theorem three_failures_direction_counterexample :
    (allEvents (defTrace 20)).countP isRev = 3 ∧
    (initState 3).task.DIR = Dir.CW ∧
    (defRun 20).task.DIR = Dir.CCW ∧
    Dir.CCW ≠ Dir.CW := by
  decide

/-- C8, amended.  Three consecutive act failures (failThreshold K = 3,
starting from failCount = 0, as in the default run) reverse the travel
direction exactly three times so that the net direction is the OPPOSITE
of the original; exactly one ESCALATE is emitted, on the third failure
(tick 20, none in the first 19 ticks); `buf[C]` is flipped exactly once;
and `parkRemaining` is set to `parkDuration`. -/
theorem three_failures_escalation :
    (allEvents (defTrace 20)).countP isRev = 3 ∧
    (allEvents (defTrace 19)).countP isRev = 2 ∧
    (allEvents (defTrace 20)).countP isEsc = 1 ∧
    (allEvents (defTrace 19)).countP isEsc = 0 ∧
    (initState 3).task.DIR = Dir.CW ∧
    (defRun 20).task.DIR = flipDir Dir.CW ∧
    (initState 3).buf cIdx = 1 ∧
    (defRun 20).buf cIdx = (initState 3).buf cIdx * -1 ∧
    (defRun 20).task.PARK = (defRun 20).task.H ∧
    (defRun 20).task.FAILCOUNT = 0 := by
  decide

/-- C9, counterexample.  The source performs no configuration validation
at all: with a non-positive tick count and negative counters —
a configuration the claim says must be rejected with an error before any
tick runs — construction still succeeds, producing the ordinary initial
state (active task, baton at A marked 0), and the run simply executes
zero ticks; the code has no error path. -/
theorem construction_no_validation_counterexample :
    construct badConfig = initState (-1) ∧
    (construct badConfig).task.P = 1 ∧
    (construct badConfig).S (construct badConfig).baton_pos = 0 ∧
    tickCountOf badConfig.steps = 0 ∧
    runConfig badConfig = construct badConfig := by
  refine ⟨rfl, rfl, rfl, rfl, rfl⟩

/-- C9, amended.  Construction is total and unvalidated: every integer
configuration yields the fixed initial state (task
`P=1, D=1, FAILCOUNT=0, DIR=CW, K=3, H=2, PARK=0` with the configured
TTL, baton at A); the CLI defaults are `steps=80, Hshadow=3, Emax=6,
TTL=3` with fixed `K=3, H=2`, direction CW; and a non-positive tick
count yields a run of zero ticks instead of an error. -/
theorem construction_total (cfg : Config) :
    construct cfg = initState cfg.TTL ∧
    (construct cfg).task = Task.start cfg.TTL ∧
    (construct cfg).baton_pos = aIdx ∧
    (construct cfg).S aIdx = 0 ∧
    (Task.start cfg.TTL).K = 3 ∧
    (Task.start cfg.TTL).H = 2 ∧
    (Task.start cfg.TTL).DIR = Dir.CW ∧
    defaultConfig.steps = 80 ∧
    defaultConfig.Hshadow = 3 ∧
    defaultConfig.Emax = 6 ∧
    defaultConfig.TTL = 3 ∧
    (cfg.steps ≤ 0 → runConfig cfg = construct cfg) := by
  refine ⟨rfl, rfl, rfl, rfl, rfl, rfl, rfl, rfl, rfl, rfl, rfl, ?_⟩
  intro hs
  unfold runConfig
  have h0 : tickCountOf cfg.steps = 0 := Int.toNat_of_nonpos hs
  rw [h0]
  rfl

/-- Witness of C9 (amended) at the invalid configuration: the run of
zero ticks ends in the freshly constructed state. -/
theorem construction_total_witness :
    badConfig.steps ≤ 0 ∧ runConfig badConfig = construct badConfig :=
  ⟨by decide, (construction_total badConfig).2.2.2.2.2.2.2.2.2.2.2 (by decide)⟩

end Ana
